import Mathlib

/-!
Verification of the event-sourced coordination store and process supervisor
(`coordination-protocol.py`, `orchestrator.py`).

The Python code is shallowly embedded: the event log is a list of parsed
log lines, the two projections are association lists mirroring Python
dict semantics (insertion order preserved, in-place update on existing
keys), and every Coordination API operation is a pure function from a
store state to an `Except`-wrapped result.  Lock acquisition outcomes are
passed in as explicit booleans; `Except.error` models a raised Python
exception, `Except.ok` a normal return.
-/

namespace Coordination

/-- Task lifecycle states (enum `TaskStatus`). -/
inductive TaskStatus where
  | pending
  | assigned
  | in_progress
  | completed
  | failed
  | cancelled
deriving DecidableEq

/-- `TaskStatus.<X>.value` — the `.value` attribute of the Python enum. -/
def TaskStatus.value : TaskStatus → String
  | .pending => "pending"
  | .assigned => "assigned"
  | .in_progress => "in_progress"
  | .completed => "completed"
  | .failed => "failed"
  | .cancelled => "cancelled"

/-- Agent role classes (enum `AgentType`). -/
inductive AgentType where
  | blue
  | green
  | red
deriving DecidableEq

/-- `.value` attribute of the `AgentType` enum. -/
def AgentType.value : AgentType → String
  | .blue => "blue"
  | .green => "green"
  | .red => "red"

/-- How `json.dump(..., default=str)` serializes an `AgentType` enum member:
`str(AgentType.BLUE)` is the string below, not the `.value`. -/
def AgentType.pyStr : AgentType → String
  | .blue => "AgentType.BLUE"
  | .green => "AgentType.GREEN"
  | .red => "AgentType.RED"

/-- How `json.dump(..., default=str)` serializes a `TaskStatus` enum member
appearing in an `asdict(task)` payload: `str(TaskStatus.PENDING)`. -/
def TaskStatus.pyStr : TaskStatus → String
  | .pending => "TaskStatus.PENDING"
  | .assigned => "TaskStatus.ASSIGNED"
  | .in_progress => "TaskStatus.IN_PROGRESS"
  | .completed => "TaskStatus.COMPLETED"
  | .failed => "TaskStatus.FAILED"
  | .cancelled => "TaskStatus.CANCELLED"

/-- A task record as it appears in the event log / task-queue projection
(dataclass `Task`, with `status` a JSON string and `result` an optional
string-to-string dict). -/
structure Task where
  id : String
  type : String
  priority : Int
  assigned_to : Option String
  status : String
  created_at : String
  updated_at : String
  description : String
  context : Option String
  dependencies : List String
  result : Option (List (String × String))
deriving DecidableEq

/-- An agent record as it appears in the agent-registry projection
(dataclass `Agent`; `type` holds the JSON-serialized enum string). -/
structure Agent where
  id : String
  type : String
  pid : Int
  status : String
  last_heartbeat : String
  current_task : Option String
  tasks_completed : Int
  tasks_failed : Int
deriving DecidableEq

/-- A parsed event-log record.  `task_updated.result = none` models the
`result` key being absent from the record (it is only written when the
`result` argument is truthy); `other` covers records whose `type` is not
one of the five recognized values (both rebuild folds ignore them). -/
inductive Event where
  | task_created (task : Task)
  | task_assigned (task_id agent_id timestamp : String)
  | task_updated (task_id status timestamp : String)
      (agent_id : Option String) (result : Option (List (String × String)))
  | agent_registered (agent : Agent)
  | agent_heartbeat (agent_id timestamp : String) (current_task : Option String)
  | other (ty : String)
deriving DecidableEq

/-- One line of `event-log.jsonl` as the rebuild loop sees it: a line that
is all whitespace (skipped by `if line.strip()`), a non-blank line on
which `json.loads` raises, or a well-formed record. -/
inductive LogLine where
  | blank
  | malformed (raw : String)
  | event (e : Event)
deriving DecidableEq

/-- Whether a log line is skipped by the `if line.strip()` guard. -/
def LogLine.isBlank : LogLine → Bool
  | .blank => true
  | _ => false

/-! ### Python dict semantics over association lists -/

/-- Dict lookup (`m[k]` / `k in m`), first binding wins. -/
def alookup {α : Type} : List (String × α) → String → Option α
  | [], _ => none
  | (k, v) :: rest, key => if k = key then some v else alookup rest key

/-- Assignment to a key that is already present: the binding is replaced
in place, keeping its position (CPython dict update semantics). -/
def aset {α : Type} (m : List (String × α)) (key : String) (v : α) :
    List (String × α) :=
  m.map fun p => if p.1 = key then (key, v) else p

/-- Dict assignment `m[k] = v`: update in place when the key exists,
otherwise append at the end (CPython dict insertion order). -/
def dictInsert {α : Type} (m : List (String × α)) (key : String) (v : α) :
    List (String × α) :=
  if (alookup m key).isSome then aset m key v else m ++ [(key, v)]

/-- Python truthiness of the optional `current_task` string in a heartbeat
record: `None` and the empty string are falsy. -/
def pyTruthyStr : Option String → Bool
  | none => false
  | some s => !(s == "")

/-- Python truthiness of the optional `result` dict argument: `None` and
an empty dict are falsy, so the `result` key is only written for a
non-empty dict. -/
def pyTruthyDict :
    Option (List (String × String)) → Option (List (String × String))
  | none => none
  | some r => if r.isEmpty then none else some r

/-! ### Projection folds (`_rebuild_task_queue`, `_rebuild_agent_registry`) -/

/-- The per-event folding step of `_rebuild_task_queue`.  Note that the
`task_assigned` arm checks only that the task exists (`task_id in tasks`),
not its current status, and the `task_updated` arm likewise updates any
existing task unconditionally. -/
def applyTaskEvent (tasks : List (String × Task)) : Event → List (String × Task)
  | .task_created t => dictInsert tasks t.id t
  | .task_assigned tid aid ts =>
      match alookup tasks tid with
      | some t =>
          aset tasks tid
            { t with assigned_to := some aid
                     status := TaskStatus.assigned.value
                     updated_at := ts }
      | none => tasks
  | .task_updated tid st ts _ res =>
      match alookup tasks tid with
      | some t =>
          let t1 := { t with status := st, updated_at := ts }
          let t2 := match res with
            | some r => { t1 with result := some r }
            | none => t1
          aset tasks tid t2
      | none => tasks
  | _ => tasks

/-- The per-event folding step of `_rebuild_agent_registry`: heartbeats
update `last_heartbeat` of an existing agent and overwrite `current_task`
only when the record carries a truthy value. -/
def applyAgentEvent (agents : List (String × Agent)) : Event → List (String × Agent)
  | .agent_registered a => dictInsert agents a.id a
  | .agent_heartbeat aid ts ct =>
      match alookup agents aid with
      | some ag =>
          let ag1 := { ag with last_heartbeat := ts }
          let ag2 := if pyTruthyStr ct then { ag1 with current_task := ct } else ag1
          aset agents aid ag2
      | none => agents
  | _ => agents

/-- The line loop of `_rebuild_task_queue`: blank lines are skipped, a
line on which `json.loads` raises aborts the whole rebuild with the
exception, recognized events are folded in order. -/
def foldTaskLines (tasks : List (String × Task)) :
    List LogLine → Except String (List (String × Task))
  | [] => .ok tasks
  | .blank :: rest => foldTaskLines tasks rest
  | .malformed _ :: _ => .error "json decode error"
  | .event e :: rest => foldTaskLines (applyTaskEvent tasks e) rest

/-- The line loop of `_rebuild_agent_registry`. -/
def foldAgentLines (agents : List (String × Agent)) :
    List LogLine → Except String (List (String × Agent))
  | [] => .ok agents
  | .blank :: rest => foldAgentLines agents rest
  | .malformed _ :: _ => .error "json decode error"
  | .event e :: rest => foldAgentLines (applyAgentEvent agents e) rest

/-- Contents of `task-queue.json` as written by `_rebuild_task_queue`
(`version` is `int(time.time())` and `rebuilt_at` the wall-clock stamp,
both passed in as parameters of the model). -/
structure QueueFile where
  tasks : List (String × Task)
  version : Nat
  rebuilt_at : String
deriving DecidableEq

/-- Contents of `agent-registry.json`. -/
structure RegistryFile where
  agents : List (String × Agent)
  version : Nat
  rebuilt_at : String
deriving DecidableEq

/-- `_rebuild_task_queue`: replay the whole log, then atomically write
the projection file with fresh stamps. -/
def rebuild_task_queue (log : List LogLine) (version : Nat)
    (rebuilt_at : String) : Except String QueueFile :=
  (foldTaskLines [] log).map fun ts =>
    { tasks := ts, version := version, rebuilt_at := rebuilt_at }

/-- `_rebuild_agent_registry`. -/
def rebuild_agent_registry (log : List LogLine) (version : Nat)
    (rebuilt_at : String) : Except String RegistryFile :=
  (foldAgentLines [] log).map fun ags =>
    { agents := ags, version := version, rebuilt_at := rebuilt_at }

/-! ### Coordination API operations

A `Store` is the durable coordination state an operation sees: the event
log plus the `tasks` / `agents` maps of the two projection files (the
`version` and `rebuilt_at` stamps are read by no operation and are
modeled only in the file-level rebuilds above).  Lock acquisitions are
explicit boolean parameters (`true` = acquired within the timeout);
`_append_event` raises when the event-log lock times out, so it returns
`Except.error` in that case. -/

structure Store where
  log : List LogLine
  queue : List (String × Task)
  registry : List (String × Agent)
deriving DecidableEq

/-- `_append_event`: under the `event_log` lock, append one record to the
log; a lock timeout raises `Exception("Failed to acquire event log lock")`. -/
def append_event (logLockOk : Bool) (log : List LogLine) (e : Event) :
    Except String (List LogLine) :=
  if logLockOk then .ok (log ++ [.event e]) else .error "Failed to acquire event log lock"

/-- `create_task`: build a fresh pending task, append `task_created`,
rebuild the task queue, return the generated id.  The generated uuid and
timestamp are parameters.  The appended record's `status` field is the
`default=str` serialization of the enum member, not its `.value`. -/
def create_task (logLockOk : Bool) (s : Store) (task_id now : String)
    (task_type description : String) (priority : Int) (context : Option String)
    (dependencies : List String) : Except String (String × Store) :=
  let task : Task :=
    { id := task_id
      type := task_type
      priority := priority
      assigned_to := none
      status := TaskStatus.pending.pyStr
      created_at := now
      updated_at := now
      description := description
      context := context
      dependencies := dependencies
      result := none }
  match append_event logLockOk s.log (.task_created task) with
  | .error e => .error e
  | .ok log' =>
    match foldTaskLines [] log' with
    | .error e => .error e
    | .ok tasks' => .ok (task_id, { s with log := log', queue := tasks' })

/-- `assign_task`: under the `task_assignment` lock, re-read the task
queue; refuse (return `false`, append nothing) when the task is missing,
not `pending`, or has a dependency that is present in the queue with a
status other than `completed`; otherwise append `task_assigned` and
rebuild.  A `task_assignment` lock timeout returns `false`. -/
def assign_task (assignLockOk logLockOk : Bool) (s : Store)
    (task_id agent_id now : String) : Except String (Bool × Store) :=
  if !assignLockOk then .ok (false, s)
  else
    match alookup s.queue task_id with
    | none => .ok (false, s)
    | some task =>
      if task.status ≠ TaskStatus.pending.value then .ok (false, s)
      else if task.dependencies.any (fun dep =>
          match alookup s.queue dep with
          | some d => decide (d.status ≠ TaskStatus.completed.value)
          | none => false) then .ok (false, s)
      else
        match append_event logLockOk s.log (.task_assigned task_id agent_id now) with
        | .error e => .error e
        | .ok log' =>
          match foldTaskLines [] log' with
          | .error e => .error e
          | .ok tasks' => .ok (true, { s with log := log', queue := tasks' })

/-- `update_task_status`: under the `task_update` lock, unconditionally
append `task_updated` (the `result` key only when the argument is truthy)
and rebuild; returns `true`.  A `task_update` lock timeout returns `false`. -/
def update_task_status (updateLockOk logLockOk : Bool) (s : Store)
    (task_id : String) (status : TaskStatus)
    (result : Option (List (String × String))) (agent_id : Option String)
    (now : String) : Except String (Bool × Store) :=
  if !updateLockOk then .ok (false, s)
  else
    match append_event logLockOk s.log
        (.task_updated task_id status.value now agent_id (pyTruthyDict result)) with
    | .error e => .error e
    | .ok log' =>
      match foldTaskLines [] log' with
      | .error e => .error e
      | .ok tasks' => .ok (true, { s with log := log', queue := tasks' })

/-- `register_agent`: under the `agent_registry` lock, append
`agent_registered` and rebuild the registry; returns `true`.  A registry
lock timeout returns `false`. -/
def register_agent (registryLockOk logLockOk : Bool) (s : Store)
    (agent_id : String) (agent_type : AgentType) (pid : Int) (now : String) :
    Except String (Bool × Store) :=
  if !registryLockOk then .ok (false, s)
  else
    let agent : Agent :=
      { id := agent_id
        type := agent_type.pyStr
        pid := pid
        status := "active"
        last_heartbeat := now
        current_task := none
        tasks_completed := 0
        tasks_failed := 0 }
    match append_event logLockOk s.log (.agent_registered agent) with
    | .error e => .error e
    | .ok log' =>
      match foldAgentLines [] log' with
      | .error e => .error e
      | .ok agents' => .ok (true, { s with log := log', registry := agents' })

/-- `update_agent_heartbeat`: no operation lock of its own — append
`agent_heartbeat` and rebuild the registry, returning `true`
unconditionally. -/
def update_agent_heartbeat (logLockOk : Bool) (s : Store) (agent_id : String)
    (current_task : Option String) (now : String) :
    Except String (Bool × Store) :=
  match append_event logLockOk s.log (.agent_heartbeat agent_id now current_task) with
  | .error e => .error e
  | .ok log' =>
    match foldAgentLines [] log' with
    | .error e => .error e
    | .ok agents' => .ok (true, { s with log := log', registry := agents' })

/-! ### Task router and `get_available_tasks` -/

/-- The `task_routing` keyword table of `_task_matches_agent`. -/
def task_routing : AgentType → List String
  | .blue => ["search", "analyze", "discover", "investigate", "find"]
  | .green => ["code", "implement", "create", "fix", "refactor", "build"]
  | .red => ["review", "audit", "security", "validate", "assess"]

/-- Python substring test `needle in hay`. -/
def strContains (hay needle : String) : Bool :=
  (List.range (hay.data.length + 1)).any fun i => needle.data.isPrefixOf (hay.data.drop i)

/-- `_task_matches_agent`: the task type (lower-cased) must contain at
least one of the role's keywords. -/
def task_matches_agent (task_type : String) (agent_type : AgentType) : Bool :=
  (task_routing agent_type).any fun keyword => strContains task_type.toLower keyword

/-- Comparison key of `available_tasks.sort(key=lambda x: x["priority"])`. -/
def taskLE (a b : Task) : Prop := a.priority ≤ b.priority

instance : DecidableRel taskLE := fun a b =>
  inferInstanceAs (Decidable (a.priority ≤ b.priority))

instance : IsTotal Task taskLE := ⟨fun a b => Int.le_total a.priority b.priority⟩

instance : IsTrans Task taskLE := ⟨fun _ _ _ => Int.le_trans⟩

/-- `get_available_tasks`: walk the task queue in projection (insertion)
order, keep the pending tasks whose type matches the role, and sort the
result by priority.  Python's `list.sort` is stable; it is modeled by the
stable `List.insertionSort`. -/
def get_available_tasks (agent_type : AgentType)
    (queue : List (String × Task)) : List Task :=
  let available := (queue.map Prod.snd).filter fun t =>
    t.status == TaskStatus.pending.value && task_matches_agent t.type agent_type
  List.insertionSort taskLE available

/-! ### Process supervisor (`orchestrator.py`) -/

/-- `self.max_restart_attempts`. -/
def max_restart_attempts : Nat := 3

/-- The supervisor-private runtime record for one worker (dataclass
`AgentProcess`, keeping the fields the restart logic reads). -/
structure AgentProcess where
  agent_id : String
  restart_count : Nat
  status : String
deriving DecidableEq

/-- What `_restart_agent` leaves behind for the worker identity it was
called on: the record is deleted when the replacement spawn succeeds
(`del self.agents[agent_id]`), otherwise it is kept, mutated. -/
inductive RestartOutcome where
  | removed
  | kept (a : AgentProcess)
deriving DecidableEq

/-- `_restart_agent` for one tracked worker, with the success of the
`_start_agent` spawn attempt passed in as an oracle.  At or beyond the
restart limit the status is set to `stopped` and no spawn is attempted;
below it, `restart_count` is incremented and a spawn is attempted — on
success the old record is removed (the replacement runs under a new
identity), on failure the record is kept with status `error`.  The
returned boolean records whether a spawn attempt occurred. -/
def restart_agent (a : AgentProcess) (spawnOk : Bool) :
    RestartOutcome × Bool :=
  if max_restart_attempts ≤ a.restart_count then
    (.kept { a with status := "stopped" }, false)
  else
    if spawnOk then (.removed, true)
    else (.kept { a with restart_count := a.restart_count + 1, status := "error" }, true)

/-- The health loop's effect on one worker identity across a sequence of
observed deaths (one `restart_agent` call per death, each with its spawn
oracle).  Returns the final record for this identity (`none` once it has
been replaced) and the total number of spawn attempts made for it. -/
def run_restarts (a : AgentProcess) : List Bool → Option AgentProcess × Nat
  | [] => (some a, 0)
  | ok :: rest =>
    match restart_agent a ok with
    | (.removed, _) => (none, 1)
    | (.kept a', attempted) =>
      let r := run_restarts a' rest
      (r.1, (if attempted then 1 else 0) + r.2)

/-! ### Helper lemmas -/

theorem alookup_aset_self {α : Type} {m : List (String × α)} {k : String}
    {w : α} (v : α) (h : alookup m k = some w) :
    alookup (aset m k v) k = some v := by
  induction m with
  | nil => simp [alookup] at h
  | cons p rest ih =>
    obtain ⟨pk, pv⟩ := p
    have ha : aset ((pk, pv) :: rest) k v =
        (if pk = k then (k, v) else (pk, pv)) :: aset rest k v := rfl
    by_cases hk : pk = k
    · rw [ha, if_pos hk, alookup, if_pos rfl]
    · rw [alookup, if_neg hk] at h
      rw [ha, if_neg hk, alookup, if_neg hk]
      exact ih h

theorem alookup_aset_ne {α : Type} (m : List (String × α)) {k k' : String}
    (v : α) (h : k' ≠ k) : alookup (aset m k v) k' = alookup m k' := by
  induction m with
  | nil => rfl
  | cons p rest ih =>
    obtain ⟨pk, pv⟩ := p
    have ha : aset ((pk, pv) :: rest) k v =
        (if pk = k then (k, v) else (pk, pv)) :: aset rest k v := rfl
    by_cases hk : pk = k
    · subst hk
      rw [ha, if_pos rfl, alookup, alookup, if_neg (fun hh => h hh.symm),
        if_neg (fun hh => h hh.symm)]
      exact ih
    · rw [ha, if_neg hk, alookup, alookup]
      by_cases hk' : pk = k'
      · rw [if_pos hk', if_pos hk']
      · rw [if_neg hk', if_neg hk']
        exact ih

theorem foldTaskLines_append (l₁ l₂ : List LogLine) :
    ∀ st, foldTaskLines st (l₁ ++ l₂) =
      match foldTaskLines st l₁ with
      | .ok t => foldTaskLines t l₂
      | .error e => .error e := by
  induction l₁ with
  | nil => intro st; rfl
  | cons hd tl ih =>
    intro st
    cases hd with
    | blank => simpa [foldTaskLines] using ih st
    | malformed raw => simp [foldTaskLines]
    | event e => simpa [foldTaskLines] using ih (applyTaskEvent st e)

theorem foldTaskLines_snoc (l : List LogLine) (e : Event) (st : List (String × Task)) :
    foldTaskLines st (l ++ [.event e]) =
      (foldTaskLines st l).map (fun t => applyTaskEvent t e) := by
  rw [foldTaskLines_append]
  cases foldTaskLines st l <;> rfl

theorem foldAgentLines_append (l₁ l₂ : List LogLine) :
    ∀ st, foldAgentLines st (l₁ ++ l₂) =
      match foldAgentLines st l₁ with
      | .ok t => foldAgentLines t l₂
      | .error e => .error e := by
  induction l₁ with
  | nil => intro st; rfl
  | cons hd tl ih =>
    intro st
    cases hd with
    | blank => simpa [foldAgentLines] using ih st
    | malformed raw => simp [foldAgentLines]
    | event e => simpa [foldAgentLines] using ih (applyAgentEvent st e)

theorem foldAgentLines_snoc (l : List LogLine) (e : Event) (st : List (String × Agent)) :
    foldAgentLines st (l ++ [.event e]) =
      (foldAgentLines st l).map (fun t => applyAgentEvent t e) := by
  rw [foldAgentLines_append]
  cases foldAgentLines st l <;> rfl

theorem list_any_eq_bnot_all {α : Type} (f g : α → Bool)
    (h : ∀ x, f x = !(g x)) (l : List α) : l.any f = !(l.all g) := by
  induction l with
  | nil => rfl
  | cons a l ih => simp [List.any_cons, List.all_cons, h, ih]

theorem filter_priority_orderedInsert (p : Int) (a : Task) (l : List Task) :
    (List.orderedInsert taskLE a l).filter (fun t => decide (t.priority = p)) =
      if a.priority = p then a :: l.filter (fun t => decide (t.priority = p))
      else l.filter (fun t => decide (t.priority = p)) := by
  induction l with
  | nil =>
    by_cases hp : a.priority = p <;>
      simp [List.orderedInsert, List.filter_cons, hp]
  | cons b l ih =>
    simp only [List.orderedInsert]
    by_cases hab : taskLE a b
    · rw [if_pos hab]
      by_cases hp : a.priority = p <;> simp [List.filter_cons, hp]
    · rw [if_neg hab]
      have hba : b.priority < a.priority := by
        unfold taskLE at hab; omega
      by_cases hp : a.priority = p
      · have hbp : ¬b.priority = p := by omega
        simp [List.filter_cons, hp, hbp, ih]
      · by_cases hbp : b.priority = p <;>
          simp [List.filter_cons, hp, hbp, ih]

theorem filter_priority_insertionSort (p : Int) (l : List Task) :
    (List.insertionSort taskLE l).filter (fun t => decide (t.priority = p)) =
      l.filter (fun t => decide (t.priority = p)) := by
  induction l with
  | nil => rfl
  | cons a l ih =>
    simp only [List.insertionSort]
    rw [filter_priority_orderedInsert]
    by_cases hp : a.priority = p <;> simp [List.filter_cons, hp, ih]

theorem run_restarts_attempts (oks : List Bool) :
    ∀ a : AgentProcess,
      (run_restarts a oks).2 ≤ max_restart_attempts - a.restart_count := by
  induction oks with
  | nil => intro a; simp [run_restarts]
  | cons ok rest ih =>
    intro a
    by_cases hle : max_restart_attempts ≤ a.restart_count
    · have hra : restart_agent a ok = (.kept { a with status := "stopped" }, false) := by
        rw [restart_agent, if_pos hle]
      have h2 := ih { a with status := "stopped" }
      simp only [run_restarts, hra]
      simpa using h2
    · have hlt : a.restart_count < max_restart_attempts := by omega
      cases ok with
      | true =>
        have hra : restart_agent a true = (.removed, true) := by
          rw [restart_agent, if_neg hle, if_pos rfl]
        simp only [run_restarts, hra]
        omega
      | false =>
        have hra : restart_agent a false =
            (.kept { a with restart_count := a.restart_count + 1, status := "error" }, true) := by
          rw [restart_agent, if_neg hle]
          rfl
        have h2 := ih { a with restart_count := a.restart_count + 1, status := "error" }
        simp only [run_restarts, hra]
        simp only [if_pos rfl] at h2 ⊢
        simp at h2 ⊢
        omega

theorem run_restarts_count (oks : List Bool) :
    ∀ a : AgentProcess, a.restart_count ≤ max_restart_attempts →
      ∀ a', (run_restarts a oks).1 = some a' →
        a'.restart_count ≤ max_restart_attempts := by
  induction oks with
  | nil =>
    intro a h a' h'
    simp only [run_restarts, Option.some.injEq] at h'
    exact h' ▸ h
  | cons ok rest ih =>
    intro a h a' h'
    by_cases hle : max_restart_attempts ≤ a.restart_count
    · have hra : restart_agent a ok = (.kept { a with status := "stopped" }, false) := by
        rw [restart_agent, if_pos hle]
      simp only [run_restarts, hra] at h'
      exact ih { a with status := "stopped" } h a' h'
    · cases ok with
      | true =>
        have hra : restart_agent a true = (.removed, true) := by
          rw [restart_agent, if_neg hle, if_pos rfl]
        simp only [run_restarts, hra] at h'
        exact absurd h' (by simp)
      | false =>
        have hra : restart_agent a false =
            (.kept { a with restart_count := a.restart_count + 1, status := "error" }, true) := by
          rw [restart_agent, if_neg hle]
          rfl
        simp only [run_restarts, hra] at h'
        exact ih { a with restart_count := a.restart_count + 1, status := "error" }
          (by simp; omega) a' h'

theorem run_restarts_stopped (oks : List Bool) :
    ∀ a : AgentProcess, max_restart_attempts ≤ a.restart_count → oks ≠ [] →
      run_restarts a oks = (some { a with status := "stopped" }, 0) := by
  induction oks with
  | nil => intro a _ hne; exact absurd rfl hne
  | cons ok rest ih =>
    intro a h _
    have hra : restart_agent a ok = (.kept { a with status := "stopped" }, false) := by
      rw [restart_agent, if_pos h]
    by_cases hrest : rest = []
    · subst hrest
      simp [run_restarts, hra]
    · have h2 := ih { a with status := "stopped" } h hrest
      simp only [run_restarts, hra, h2]
      simp

theorem foldTaskLines_isOk_iff (lines : List LogLine) :
    ∀ init, (foldTaskLines init lines).isOk = true ↔
      ∀ raw, LogLine.malformed raw ∉ lines := by
  induction lines with
  | nil => intro init; simp [foldTaskLines, Except.isOk, Except.toBool]
  | cons hd tl ih =>
    intro init
    cases hd with
    | blank => simpa [foldTaskLines] using ih init
    | malformed raw =>
      simp only [foldTaskLines, Except.isOk, Except.toBool]
      constructor
      · intro h; cases h
      · intro h; exact absurd (List.mem_cons_self _ _) (h raw)
    | event e => simpa [foldTaskLines] using ih (applyTaskEvent init e)

theorem foldTaskLines_filter_blank (lines : List LogLine) :
    ∀ init, foldTaskLines init (lines.filter fun l => !l.isBlank) =
      foldTaskLines init lines := by
  induction lines with
  | nil => intro init; rfl
  | cons hd tl ih =>
    intro init
    cases hd with
    | blank => simpa [List.filter_cons, LogLine.isBlank, foldTaskLines] using ih init
    | malformed raw => simp [List.filter_cons, LogLine.isBlank, foldTaskLines]
    | event e =>
      simpa [List.filter_cons, LogLine.isBlank, foldTaskLines]
        using ih (applyTaskEvent init e)

theorem foldAgentLines_isOk_iff (lines : List LogLine) :
    ∀ init, (foldAgentLines init lines).isOk = true ↔
      ∀ raw, LogLine.malformed raw ∉ lines := by
  induction lines with
  | nil => intro init; simp [foldAgentLines, Except.isOk, Except.toBool]
  | cons hd tl ih =>
    intro init
    cases hd with
    | blank => simpa [foldAgentLines] using ih init
    | malformed raw =>
      simp only [foldAgentLines, Except.isOk, Except.toBool]
      constructor
      · intro h; cases h
      · intro h; exact absurd (List.mem_cons_self _ _) (h raw)
    | event e => simpa [foldAgentLines] using ih (applyAgentEvent init e)

theorem foldAgentLines_filter_blank (lines : List LogLine) :
    ∀ init, foldAgentLines init (lines.filter fun l => !l.isBlank) =
      foldAgentLines init lines := by
  induction lines with
  | nil => intro init; rfl
  | cons hd tl ih =>
    intro init
    cases hd with
    | blank => simpa [List.filter_cons, LogLine.isBlank, foldAgentLines] using ih init
    | malformed raw => simp [List.filter_cons, LogLine.isBlank, foldAgentLines]
    | event e =>
      simpa [List.filter_cons, LogLine.isBlank, foldAgentLines]
        using ih (applyAgentEvent init e)

/-! ### Concrete fixtures used by witnesses and counterexamples -/

/-- A pending discovery task with no dependencies. -/
def sampleTask : Task :=
  { id := "t1"
    type := "search"
    priority := 1
    assigned_to := none
    status := "pending"
    created_at := "T0"
    updated_at := "T0"
    description := "find auth patterns"
    context := none
    dependencies := []
    result := none }

/-- A log holding exactly the creation record of `sampleTask`. -/
def sampleLog : List LogLine := [.event (.task_created sampleTask)]

/-- A store whose projections are consistent with `sampleLog`. -/
def sampleStore : Store :=
  { log := sampleLog, queue := [("t1", sampleTask)], registry := [] }

/-- A task already in the terminal state `completed`. -/
def completedTask : Task := { sampleTask with status := "completed" }

/-- A store holding one completed task, consistent with its log. -/
def completedStore : Store :=
  { log := [.event (.task_created completedTask)]
    queue := [("t1", completedTask)]
    registry := [] }

/-- A pending task whose single dependency id resolves to no task. -/
def ghostDepTask : Task := { sampleTask with dependencies := ["ghost"] }

/-- A store holding only `ghostDepTask`, consistent with its log. -/
def ghostDepStore : Store :=
  { log := [.event (.task_created ghostDepTask)]
    queue := [("t1", ghostDepTask)]
    registry := [] }

/-! ### Claims -/

/-- C6: under the supervisor, a worker identity that keeps dying is
relaunched at most `max_restart_attempts` (3) times in total, its
`restart_count` never exceeds that maximum, and once the maximum is
reached every further observed death sets (and keeps) its status
`stopped` with no further spawn attempt. -/
theorem bounded_restart (a : AgentProcess) (oks : List Bool)
    (h0 : a.restart_count = 0) :
    (run_restarts a oks).2 ≤ max_restart_attempts
    ∧ (∀ a', (run_restarts a oks).1 = some a' →
        a'.restart_count ≤ max_restart_attempts)
    ∧ (∀ (b : AgentProcess) (oks' : List Bool),
        max_restart_attempts ≤ b.restart_count → oks' ≠ [] →
        run_restarts b oks' = (some { b with status := "stopped" }, 0)) := by
  refine ⟨?_, ?_, ?_⟩
  · have h := run_restarts_attempts oks a
    omega
  · exact fun a' h' => run_restarts_count oks a (by omega) a' h'
  · exact fun b oks' hb hne => run_restarts_stopped oks' b hb hne

/-- Witness: a worker starting at `restart_count = 0` whose four observed
deaths all fail to respawn makes at most three spawn attempts. -/
theorem bounded_restart_witness :
    (⟨"blue-agent-1", 0, "active"⟩ : AgentProcess).restart_count = 0
    ∧ (run_restarts ⟨"blue-agent-1", 0, "active"⟩
        [false, false, false, false]).2 ≤ max_restart_attempts :=
  ⟨rfl, (bounded_restart ⟨"blue-agent-1", 0, "active"⟩
    [false, false, false, false] rfl).1⟩

/-- C7 (amended): rebuilding either projection twice from the same log
yields the same tasks map and agents map — the fold reads nothing but
the ordered log — so the projection files are identical modulo both
wall-clock stamps, the `rebuilt_at` string and the `version` field
(`int(time.time())`), which the two runs each write afresh. -/
theorem rebuild_deterministic (log : List LogLine) (v₁ v₂ : Nat)
    (r₁ r₂ : String) (f₁ f₂ : QueueFile) (g₁ g₂ : RegistryFile)
    (h₁ : rebuild_task_queue log v₁ r₁ = .ok f₁)
    (h₂ : rebuild_task_queue log v₂ r₂ = .ok f₂)
    (h₃ : rebuild_agent_registry log v₁ r₁ = .ok g₁)
    (h₄ : rebuild_agent_registry log v₂ r₂ = .ok g₂) :
    f₁.tasks = f₂.tasks ∧ g₁.agents = g₂.agents
    ∧ ({ f₁ with version := 0, rebuilt_at := "" } : QueueFile) =
        { f₂ with version := 0, rebuilt_at := "" }
    ∧ ({ g₁ with version := 0, rebuilt_at := "" } : RegistryFile) =
        { g₂ with version := 0, rebuilt_at := "" } := by
  have htasks : f₁.tasks = f₂.tasks := by
    unfold rebuild_task_queue at h₁ h₂
    cases hf : foldTaskLines [] log with
    | error e => rw [hf] at h₁; cases h₁
    | ok ts =>
      rw [hf] at h₁ h₂
      cases h₁; cases h₂; rfl
  have hagents : g₁.agents = g₂.agents := by
    unfold rebuild_agent_registry at h₃ h₄
    cases hf : foldAgentLines [] log with
    | error e => rw [hf] at h₃; cases h₃
    | ok ags =>
      rw [hf] at h₃ h₄
      cases h₃; cases h₄; rfl
  exact ⟨htasks, hagents, by rw [htasks], by rw [hagents]⟩

/-- Witness: two rebuilds of the sample log with different version and
rebuilt_at stamps agree on both maps. -/
theorem rebuild_deterministic_witness :
    (⟨[("t1", sampleTask)], 5, "A"⟩ : QueueFile).tasks =
      (⟨[("t1", sampleTask)], 99, "B"⟩ : QueueFile).tasks
    ∧ (⟨[], 5, "A"⟩ : RegistryFile).agents =
      (⟨[], 99, "B"⟩ : RegistryFile).agents := by
  have h := rebuild_deterministic sampleLog 5 99 "A" "B" _ _ _ _ rfl rfl rfl rfl
  exact ⟨h.1, h.2.1⟩

/-- Counterexample to C7 as stated: two rebuilds of the same log in
different seconds are not byte-identical modulo the `rebuilt_at` stamp
alone — the `version` field (`int(time.time())`) also differs, so even
after normalizing `rebuilt_at` to the same string the two projection
files remain different. -/
theorem rebuild_version_counterexample :
    rebuild_task_queue sampleLog 5 "A" =
      .ok { tasks := [("t1", sampleTask)], version := 5, rebuilt_at := "A" }
    ∧ rebuild_task_queue sampleLog 99 "B" =
      .ok { tasks := [("t1", sampleTask)], version := 99, rebuilt_at := "B" }
    ∧ ({ tasks := [("t1", sampleTask)], version := 5, rebuilt_at := "" } : QueueFile) ≠
        { tasks := [("t1", sampleTask)], version := 99, rebuilt_at := "" } :=
  ⟨rfl, rfl, by decide⟩

/-- C4 (amended): replay reports an error for a malformed (non-blank,
unparsable) record at any position — including the very last line, which
is not silently skipped — and succeeds exactly when no malformed record
is present; only all-whitespace lines are skipped, at any position. -/
theorem rebuild_malformed_handling (lines : List LogLine) :
    ((foldTaskLines [] lines).isOk = true ↔ ∀ raw, LogLine.malformed raw ∉ lines)
    ∧ foldTaskLines [] (lines.filter fun l => !l.isBlank) = foldTaskLines [] lines
    ∧ ((foldAgentLines [] lines).isOk = true ↔ ∀ raw, LogLine.malformed raw ∉ lines)
    ∧ foldAgentLines [] (lines.filter fun l => !l.isBlank) = foldAgentLines [] lines :=
  ⟨foldTaskLines_isOk_iff lines [], foldTaskLines_filter_blank lines [],
    foldAgentLines_isOk_iff lines [], foldAgentLines_filter_blank lines []⟩

/-- Counterexample to C4 as stated: a log whose only flaw is a malformed
final record makes the rebuild fail, while the same log without that
trailing record rebuilds fine — the trailing record is not skipped. -/
theorem rebuild_trailing_malformed_counterexample :
    (foldTaskLines [] [.event (.task_created sampleTask), .malformed "oops"]).isOk
      = false
    ∧ (foldTaskLines [] [.event (.task_created sampleTask)]).isOk = true :=
  ⟨rfl, rfl⟩

/-- C3 (amended): in the projection fold, a `task_assigned` event mutates
the task (setting `assigned_to` to the event's agent, status to
`assigned`, `updated_at` to the event's timestamp) whenever the task
exists in the folded state, regardless of its current status; an event
whose task id is absent leaves the state unchanged, and other tasks are
never touched. -/
theorem task_assigned_fold_mutates_existing (tasks : List (String × Task))
    (tid aid ts : String) :
    (alookup tasks tid = none →
      applyTaskEvent tasks (.task_assigned tid aid ts) = tasks)
    ∧ (∀ τ, alookup tasks tid = some τ →
        alookup (applyTaskEvent tasks (.task_assigned tid aid ts)) tid =
          some { τ with assigned_to := some aid,
                        status := TaskStatus.assigned.value, updated_at := ts })
    ∧ (∀ k, k ≠ tid →
        alookup (applyTaskEvent tasks (.task_assigned tid aid ts)) k =
          alookup tasks k) := by
  refine ⟨?_, ?_, ?_⟩
  · intro h
    simp [applyTaskEvent, h]
  · intro τ h
    simp only [applyTaskEvent, h]
    exact alookup_aset_self _ h
  · intro k hk
    cases h : alookup tasks tid with
    | none => simp [applyTaskEvent, h]
    | some τ =>
      simp only [applyTaskEvent, h]
      exact alookup_aset_ne tasks _ hk

/-- Witness: folding a `task_assigned` event over a state holding the
pending sample task mutates exactly that task. -/
theorem task_assigned_fold_witness :
    alookup [("t1", sampleTask)] "t1" = some sampleTask
    ∧ alookup (applyTaskEvent [("t1", sampleTask)]
        (.task_assigned "t1" "a1" "T1")) "t1" =
      some { sampleTask with
             assigned_to := some "a1"
             status := TaskStatus.assigned.value
             updated_at := "T1" } :=
  ⟨rfl, (task_assigned_fold_mutates_existing [("t1", sampleTask)]
    "t1" "a1" "T1").2.1 sampleTask rfl⟩

/-- Counterexample to C3 as stated: a `task_assigned` event applied to an
existing task whose folded status is `completed` (non-pending) does not
leave it unchanged — its status becomes `assigned`. -/
theorem task_assigned_fold_counterexample :
    (alookup [("t1", completedTask)] "t1").map Task.status = some "completed"
    ∧ (alookup (applyTaskEvent [("t1", completedTask)]
        (.task_assigned "t1" "a1" "T1")) "t1").map Task.status = some "assigned" :=
  ⟨rfl, rfl⟩

/-- C10: `update_agent_heartbeat` performs no registration check — given
the event-log lock, it returns `true` for every agent id (registered or
not) and always appends an `agent_heartbeat` event; folding that event
for an id absent from the agents map leaves the map unchanged. -/
theorem heartbeat_unconditional :
    (∀ (s : Store) (aid now : String) (ct : Option String) (b : Bool) (s' : Store),
      update_agent_heartbeat true s aid ct now = .ok (b, s') →
      b = true ∧ s'.log = s.log ++ [.event (.agent_heartbeat aid now ct)])
    ∧ (∀ (agents : List (String × Agent)) (aid now : String) (ct : Option String),
      alookup agents aid = none →
      applyAgentEvent agents (.agent_heartbeat aid now ct) = agents) := by
  constructor
  · intro s aid now ct b s' h
    cases hf : foldAgentLines []
        (s.log ++ [.event (.agent_heartbeat aid now ct)]) with
    | error e =>
      have h2 : (Except.error e : Except String (Bool × Store)) = .ok (b, s') := by
        rw [← h]
        simp only [update_agent_heartbeat, append_event, if_true, hf]
      cases h2
    | ok ags =>
      have h2 : (Except.ok
          (true, { s with
                   log := s.log ++ [.event (.agent_heartbeat aid now ct)]
                   registry := ags }) : Except String (Bool × Store)) = .ok (b, s') := by
        rw [← h]
        simp only [update_agent_heartbeat, append_event, if_true, hf]
      cases h2
      exact ⟨rfl, rfl⟩
  · intro agents aid now ct h
    simp [applyAgentEvent, h]

/-- Witness: a heartbeat for the never-registered id `ghost` returns true
and appends, and folding it leaves an empty agents map empty. -/
theorem heartbeat_unconditional_witness :
    alookup ([] : List (String × Agent)) "ghost" = none
    ∧ applyAgentEvent [] (.agent_heartbeat "ghost" "T1" none) = []
    ∧ ({ log := sampleLog ++ [.event (.agent_heartbeat "ghost" "T1" none)]
         queue := [("t1", sampleTask)]
         registry := [] } : Store).log =
        sampleStore.log ++ [.event (.agent_heartbeat "ghost" "T1" none)] :=
  ⟨rfl, heartbeat_unconditional.2 [] "ghost" "T1" none rfl,
    (heartbeat_unconditional.1 sampleStore "ghost" "T1" none true
      { log := sampleLog ++ [.event (.agent_heartbeat "ghost" "T1" none)]
        queue := [("t1", sampleTask)]
        registry := [] } rfl).2⟩

/-- C5 (amended): `assign_task`, `update_task_status` and `register_agent`
return `false` (no exception) when their own operation lock times out,
whatever the event-log lock would do; `create_task` and
`update_agent_heartbeat` take no operation lock, and a timeout acquiring
the event-log lock inside `_append_event` raises an exception for them
instead of returning a failure value. -/
theorem lock_timeout_behavior (s : Store) (tid aid desc ty now : String)
    (st : TaskStatus) (res : Option (List (String × String)))
    (said : Option String) (aty : AgentType) (pid pri : Int)
    (ctx : Option String) (deps : List String) (logLockOk : Bool)
    (ct : Option String) :
    assign_task false logLockOk s tid aid now = .ok (false, s)
    ∧ update_task_status false logLockOk s tid st res said now = .ok (false, s)
    ∧ register_agent false logLockOk s aid aty pid now = .ok (false, s)
    ∧ create_task false s tid now ty desc pri ctx deps =
        .error "Failed to acquire event log lock"
    ∧ update_agent_heartbeat false s aid ct now =
        .error "Failed to acquire event log lock" :=
  ⟨rfl, rfl, rfl, rfl, rfl⟩

/-- Counterexample to C5 as stated: `create_task` raises (models a Python
exception) rather than returning a failure value when the event-log lock
acquisition times out. -/
theorem lock_timeout_counterexample :
    create_task false sampleStore "t9" "T9" "search" "d" 1 none [] =
      .error "Failed to acquire event log lock" :=
  rfl

/-- C8: `get_available_tasks role queue` returns exactly the tasks of the
projection whose status is `pending` and whose type (lower-cased)
contains at least one keyword of the role's routing set — as a
permutation of that filtered list — sorted ascending by priority, and
stably: within each priority the projection (creation) order is kept. -/
theorem get_available_tasks_spec (aty : AgentType) (queue : List (String × Task)) :
    List.Perm (get_available_tasks aty queue)
      ((queue.map Prod.snd).filter fun t =>
        t.status == TaskStatus.pending.value && task_matches_agent t.type aty)
    ∧ List.Sorted taskLE (get_available_tasks aty queue)
    ∧ (∀ p : Int,
        (get_available_tasks aty queue).filter (fun t => decide (t.priority = p)) =
          ((queue.map Prod.snd).filter fun t =>
            t.status == TaskStatus.pending.value
              && task_matches_agent t.type aty).filter
            (fun t => decide (t.priority = p)))
    ∧ (∀ ty, task_matches_agent ty aty = true ↔
        ∃ k ∈ task_routing aty, strContains ty.toLower k = true) := by
  refine ⟨?_, ?_, ?_, ?_⟩
  · exact List.perm_insertionSort taskLE _
  · exact List.sorted_insertionSort taskLE _
  · intro p
    exact filter_priority_insertionSort p _
  · intro ty
    simp [task_matches_agent, List.any_eq_true]

/-- C1 (amended): `update_task_status` never inspects the task's current
status. Whenever its operation lock and the event-log lock are held and
the rebuild succeeds, it returns `true` and appends a `task_updated`
event even for a task whose projected status is terminal, and the
rebuilt projection shows that task's status overwritten with the new
value. -/
theorem update_task_status_unchecked (s : Store) (tid : String)
    (st : TaskStatus) (res : Option (List (String × String)))
    (aid : Option String) (now : String) (b : Bool) (s' : Store)
    (h : update_task_status true true s tid st res aid now = .ok (b, s')) :
    b = true
    ∧ s'.log = s.log ++
        [.event (.task_updated tid st.value now aid (pyTruthyDict res))]
    ∧ (∀ τ, alookup s.queue tid = some τ →
        foldTaskLines [] s.log = .ok s.queue →
        (alookup s'.queue tid).map Task.status = some st.value) := by
  cases hf : foldTaskLines []
      (s.log ++ [.event (.task_updated tid st.value now aid (pyTruthyDict res))]) with
  | error e =>
    have h2 : (Except.error e : Except String (Bool × Store)) = .ok (b, s') := by
      rw [← h]
      simp [update_task_status, append_event, hf]
    cases h2
  | ok ts =>
    have h2 : (Except.ok (true,
        { s with
          log := s.log ++
            [.event (.task_updated tid st.value now aid (pyTruthyDict res))]
          queue := ts }) : Except String (Bool × Store)) = .ok (b, s') := by
      rw [← h]
      simp [update_task_status, append_event, hf]
    cases h2
    refine ⟨rfl, rfl, ?_⟩
    intro τ hτ hcons
    have hts : ts = applyTaskEvent s.queue
        (.task_updated tid st.value now aid (pyTruthyDict res)) := by
      rw [foldTaskLines_snoc, hcons] at hf
      simpa [Except.map] using hf.symm
    show (alookup ts tid).map Task.status = some st.value
    rw [hts]
    simp only [applyTaskEvent, hτ]
    rw [alookup_aset_self _ hτ]
    cases hc : pyTruthyDict res <;> simp [hc]

/-- Witness: updating the completed sample task to `cancelled` succeeds
and the rebuilt projection shows the overwritten status. -/
theorem update_task_status_unchecked_witness :
    alookup completedStore.queue "t1" = some completedTask
    ∧ (alookup ({ completedStore with
          log := completedStore.log ++
            [.event (.task_updated "t1" "cancelled" "T2" none none)]
          queue := [("t1",
            { completedTask with status := "cancelled", updated_at := "T2" })] }
          : Store).queue "t1").map Task.status = some "cancelled" :=
  ⟨rfl, (update_task_status_unchecked completedStore "t1" .cancelled none none
    "T2" true _ rfl).2.2 completedTask rfl rfl⟩

/-- Counterexample to C1 as stated: a task whose projected status is the
terminal `completed` is not protected — `update_task_status` returns
`true`, appends a `task_updated` record, and the projected status
changes to `cancelled`. -/
theorem terminal_update_counterexample :
    (alookup completedStore.queue "t1").map Task.status = some "completed"
    ∧ (update_task_status true true completedStore "t1" .cancelled none none
        "T2").map
        (fun r => (r.1, (alookup r.2.queue "t1").map Task.status,
          r.2.log.length)) = .ok (true, some "cancelled", 2)
    ∧ completedStore.log.length = 1 :=
  ⟨rfl, rfl, rfl⟩

/-- Modelled from the amended claim wording: a task is assignable when it
is present in the projection with status `pending` and every dependency
id that resolves in the projection maps to a task with status
`completed`; dependency ids absent from the projection are ignored. -/
def can_assign (queue : List (String × Task)) (task_id : String) : Bool :=
  match alookup queue task_id with
  | none => false
  | some t =>
    decide (t.status = TaskStatus.pending.value)
      && t.dependencies.all fun dep =>
        match alookup queue dep with
        | some d => decide (d.status = TaskStatus.completed.value)
        | none => true

/-- C2 (amended): with both locks held, `assign_task` returns `true` and
appends a `task_assigned` event exactly when `can_assign` holds — the
task is present and `pending` and every dependency id that resolves in
the projection is `completed`, ids that resolve to no task being ignored
— and in every refusal case it returns `false` leaving the store
untouched. -/
theorem assign_task_characterization (s : Store) (tid aid now : String)
    (b : Bool) (s' : Store)
    (h : assign_task true true s tid aid now = .ok (b, s')) :
    (b = true ↔ can_assign s.queue tid = true)
    ∧ (b = false → s' = s)
    ∧ (b = true → s'.log = s.log ++ [.event (.task_assigned tid aid now)]) := by
  have hanyall : ∀ t : Task,
      t.dependencies.any (fun dep =>
        match alookup s.queue dep with
        | some d => decide (d.status ≠ TaskStatus.completed.value)
        | none => false) =
      !(t.dependencies.all fun dep =>
        match alookup s.queue dep with
        | some d => decide (d.status = TaskStatus.completed.value)
        | none => true) := by
    intro t
    refine list_any_eq_bnot_all _ _ (fun dep => ?_) t.dependencies
    cases alookup s.queue dep with
    | none => rfl
    | some d => simp [decide_not]
  cases ht : alookup s.queue tid with
  | none =>
    have h2 : (Except.ok (false, s) : Except String (Bool × Store)) = .ok (b, s') := by
      rw [← h]
      simp [assign_task, ht]
    cases h2
    exact ⟨by simp [can_assign, ht], fun _ => rfl, fun hb => by cases hb⟩
  | some task =>
    by_cases hst : task.status = TaskStatus.pending.value
    · by_cases hdep : (task.dependencies.any (fun dep =>
          match alookup s.queue dep with
          | some d => decide (d.status ≠ TaskStatus.completed.value)
          | none => false)) = true
      · have hall : (task.dependencies.all fun dep =>
            match alookup s.queue dep with
            | some d => decide (d.status = TaskStatus.completed.value)
            | none => true) = false := by
          have h3 := hanyall task
          rw [hdep] at h3
          simpa using h3.symm
        have h2 : (Except.ok (false, s) : Except String (Bool × Store)) = .ok (b, s') := by
          rw [← h]
          simp only [assign_task, ht]
          rw [if_neg (show ¬((!true) = true) from by decide),
            if_neg (fun hc => hc hst), if_pos hdep]
        cases h2
        exact ⟨by simp [can_assign, ht, hst, hall], fun _ => rfl,
          fun hb => absurd hb (by decide)⟩
      · have hdep' : (task.dependencies.any (fun dep =>
            match alookup s.queue dep with
            | some d => decide (d.status ≠ TaskStatus.completed.value)
            | none => false)) = false := by
          simpa using hdep
        have hall : (task.dependencies.all fun dep =>
            match alookup s.queue dep with
            | some d => decide (d.status = TaskStatus.completed.value)
            | none => true) = true := by
          have h3 := hanyall task
          rw [hdep'] at h3
          simpa using h3.symm
        cases hf : foldTaskLines [] (s.log ++ [.event (.task_assigned tid aid now)]) with
        | error e =>
          have h2 : (Except.error e : Except String (Bool × Store)) = .ok (b, s') := by
            rw [← h]
            simp only [assign_task, ht]
            rw [if_neg (show ¬((!true) = true) from by decide),
              if_neg (fun hc => hc hst), if_neg hdep]
            simp only [append_event, if_true, hf]
          cases h2
        | ok ts =>
          have h2 : (Except.ok (true,
              { s with log := s.log ++ [.event (.task_assigned tid aid now)]
                       queue := ts }) : Except String (Bool × Store)) = .ok (b, s') := by
            rw [← h]
            simp only [assign_task, ht]
            rw [if_neg (show ¬((!true) = true) from by decide),
              if_neg (fun hc => hc hst), if_neg hdep]
            simp only [append_event, if_true, hf]
          cases h2
          exact ⟨by simp [can_assign, ht, hst, hall],
            fun hb => absurd hb (by decide), fun _ => rfl⟩
    · have h2 : (Except.ok (false, s) : Except String (Bool × Store)) = .ok (b, s') := by
        rw [← h]
        simp [assign_task, ht, hst]
      cases h2
      exact ⟨by simp [can_assign, ht, hst], fun _ => rfl, fun hb => by cases hb⟩

/-- The task queue after assigning the ghost-dependency task. -/
def ghostAssignedQueue : List (String × Task) :=
  [("t1", { ghostDepTask with
            assigned_to := some "a1"
            status := TaskStatus.assigned.value
            updated_at := "T1" })]

/-- Witness: assigning the pending ghost-dependency task succeeds and
appends exactly one `task_assigned` record. -/
theorem assign_task_characterization_witness :
    assign_task true true ghostDepStore "t1" "a1" "T1" =
      .ok (true, { ghostDepStore with
        log := ghostDepStore.log ++ [.event (.task_assigned "t1" "a1" "T1")]
        queue := ghostAssignedQueue })
    ∧ ({ ghostDepStore with
        log := ghostDepStore.log ++ [.event (.task_assigned "t1" "a1" "T1")]
        queue := ghostAssignedQueue } : Store).log =
      ghostDepStore.log ++ [.event (.task_assigned "t1" "a1" "T1")] :=
  ⟨rfl, (assign_task_characterization ghostDepStore "t1" "a1" "T1" true _ rfl).2.2 rfl⟩

/-- Counterexample to C2 as stated: a pending task whose dependency id
resolves to no task in the projection is assigned anyway — `assign_task`
returns `true` and appends an event although the dependency does not
resolve to a completed task. -/
theorem ghost_dependency_counterexample :
    (alookup ghostDepStore.queue "t1").map Task.dependencies = some ["ghost"]
    ∧ (alookup ghostDepStore.queue "t1").map Task.status = some "pending"
    ∧ alookup ghostDepStore.queue "ghost" = none
    ∧ (assign_task true true ghostDepStore "t1" "a1" "T1").map Prod.fst = .ok true
    ∧ (assign_task true true ghostDepStore "t1" "a1" "T1").map
        (fun r => r.2.log.length) = .ok 2 :=
  ⟨rfl, rfl, rfl, rfl, rfl⟩

/-- C9: the `task_assignment` lock serializes the critical sections of
two concurrent `assign_task` calls for one task id, so the concurrent
execution reduces to one of the two sequential orders.  In either order
(the winner's call is the first to enter the critical section), on a
store whose queue is consistent with its log and holds the task as
`pending` with all resolvable dependencies `completed`, the first call
returns `true`, the second returns `false` and changes nothing — it
re-reads the projection rebuilt by the winner and finds the task no
longer pending — and the final projected `assigned_to` is exactly the
winner's agent id. -/
theorem assign_task_mutual_exclusion (s : Store) (tid a₁ a₂ now₁ now₂ : String)
    (τ : Task) (hq : foldTaskLines [] s.log = .ok s.queue)
    (ht : alookup s.queue tid = some τ)
    (hpend : τ.status = TaskStatus.pending.value)
    (hdeps : ∀ dep ∈ τ.dependencies, ∀ d, alookup s.queue dep = some d →
      d.status = TaskStatus.completed.value) :
    assign_task true true s tid a₁ now₁ =
      .ok (true, { s with
        log := s.log ++ [.event (.task_assigned tid a₁ now₁)]
        queue := applyTaskEvent s.queue (.task_assigned tid a₁ now₁) })
    ∧ assign_task true true { s with
        log := s.log ++ [.event (.task_assigned tid a₁ now₁)]
        queue := applyTaskEvent s.queue (.task_assigned tid a₁ now₁) } tid a₂ now₂ =
      .ok (false, { s with
        log := s.log ++ [.event (.task_assigned tid a₁ now₁)]
        queue := applyTaskEvent s.queue (.task_assigned tid a₁ now₁) })
    ∧ alookup (applyTaskEvent s.queue (.task_assigned tid a₁ now₁)) tid =
        some { τ with
               assigned_to := some a₁
               status := TaskStatus.assigned.value
               updated_at := now₁ } := by
  have hlook : alookup (applyTaskEvent s.queue (.task_assigned tid a₁ now₁)) tid =
      some { τ with
             assigned_to := some a₁
             status := TaskStatus.assigned.value
             updated_at := now₁ } := by
    simp only [applyTaskEvent, ht]
    exact alookup_aset_self _ ht
  have hdep0 : (τ.dependencies.any (fun dep =>
      match alookup s.queue dep with
      | some d => decide (d.status ≠ TaskStatus.completed.value)
      | none => false)) = false := by
    rw [List.any_eq_false]
    intro dep hdep'
    cases hd : alookup s.queue dep with
    | none => simp
    | some d => simp [hdeps dep hdep' d hd]
  have hfold : foldTaskLines [] (s.log ++ [.event (.task_assigned tid a₁ now₁)]) =
      .ok (applyTaskEvent s.queue (.task_assigned tid a₁ now₁)) := by
    rw [foldTaskLines_snoc, hq]
    rfl
  refine ⟨?_, ?_, hlook⟩
  · simp only [assign_task, ht]
    rw [if_neg (show ¬((!true) = true) from by decide),
      if_neg (fun hc => hc hpend),
      if_neg (show ¬(_ = true) from by rw [hdep0]; exact Bool.false_ne_true)]
    simp only [append_event, if_true, hfold]
  · have hst2 : ({ τ with
        assigned_to := some a₁
        status := TaskStatus.assigned.value
        updated_at := now₁ } : Task).status ≠ TaskStatus.pending.value := by
      intro hc
      have hc2 : TaskStatus.assigned.value = TaskStatus.pending.value := hc
      exact absurd hc2 (by decide)
    simp only [assign_task, hlook]
    rw [if_neg (show ¬((!true) = true) from by decide), if_pos hst2]

/-- The store after the winner's assignment of the sample task. -/
def sampleAssignedStore : Store :=
  { log := sampleLog ++ [.event (.task_assigned "t1" "a1" "T1")]
    queue := [("t1", { sampleTask with
                       assigned_to := some "a1"
                       status := TaskStatus.assigned.value
                       updated_at := "T1" })]
    registry := [] }

/-- Witness: on the sample store, the first of two serialized assignment
calls wins and the second is refused. -/
theorem assign_task_mutual_exclusion_witness :
    assign_task true true sampleStore "t1" "a1" "T1" = .ok (true, sampleAssignedStore)
    ∧ assign_task true true sampleAssignedStore "t1" "a2" "T2" =
        .ok (false, sampleAssignedStore) := by
  have h := assign_task_mutual_exclusion sampleStore "t1" "a1" "a2" "T1" "T2"
    sampleTask rfl rfl rfl
    (by intro dep hdep d hd; exact absurd hdep (by simp [sampleTask]))
  exact ⟨h.1, h.2.1⟩

end Coordination
